import Mathlib

/-!
Shallow embedding of the `chase` transaction-analysis program
(`chase/chase.py`), covering the record loader with its date filter and
cross-file deduplication, merchant normalization, category resolution,
the aggregation store, the monthly-report pass, and the recurrence
detector.  Monetary amounts (Python floats) are modelled as exact
rationals; Unix timestamps are integers with days of 86400 seconds and
local time modelled as UTC (no DST), so `mktime`/`localtime` become the
standard civil-calendar conversions.
-/

namespace Chase

/-! ### Association lists

Python dicts preserve insertion order; we model them as association
lists where `upsert` mutates the first matching entry in place or
appends a fresh entry at the end (the `dict.setdefault` pattern used
throughout `chase.py`). -/

/-- First value stored under key `a`, like `d.get(a)`. -/
def alookup {α β : Type} [DecidableEq α] : List (α × β) → α → Option β
  | [], _ => none
  | (k, v) :: t, a => if k = a then some v else alookup t a

/-- Update the first entry with key `k` through `f`, or append `(k, f d)`:
the effect of `d.setdefault(k, dflt)` followed by mutating the value. -/
def upsert {α β : Type} [DecidableEq α] (l : List (α × β)) (k : α) (d : β) (f : β → β) :
    List (α × β) :=
  match l with
  | [] => [(k, f d)]
  | (k1, v) :: t => if k1 = k then (k1, f v) :: t else (k1, v) :: upsert t k d f

/-- Set key `k` to value `v`, like `d[k] = v`. -/
def aset {α β : Type} [DecidableEq α] (l : List (α × β)) (k : α) (v : β) : List (α × β) :=
  upsert l k v (fun _ => v)

/-! ### Ascending sort, as performed by Python `list.sort()` -/

/-- Insert `x` into an ascending list, keeping it ascending. -/
def insertAsc {α : Type} [LinearOrder α] (x : α) : List α → List α
  | [] => [x]
  | y :: t => if x ≤ y then x :: y :: t else y :: insertAsc x t

/-- Insertion sort, ascending; models `sorted(...)` and `list.sort()`. -/
def sortAsc {α : Type} [LinearOrder α] : List α → List α
  | [] => []
  | x :: t => insertAsc x (sortAsc t)

/-! ### Calendar

Civil-calendar conversions between `(year, month, day)` and days since
the Unix epoch; `mktime(strptime(s, m/d/Y))` is `86400 *` the day
number, and `strftime(Y-m, localtime(ts))` is `monthOf ts`. -/

/-- Days from 1970-01-01 to civil date `y-m-d` (proleptic Gregorian). -/
def daysFromCivil (y m d : Int) : Int :=
  let y2 := y - (if m ≤ 2 then 1 else 0)
  let era := (if 0 ≤ y2 then y2 else y2 - 399) / 400
  let yoe := y2 - era * 400
  let mp := (m + 9) % 12
  let doy := (153 * mp + 2) / 5 + d - 1
  let doe := yoe * 365 + yoe / 4 - yoe / 100 + doy
  era * 146097 + doe - 719468

/-- Civil date `(year, month, day)` of a day count since 1970-01-01. -/
def civilFromDays (z0 : Int) : Int × Int × Int :=
  let z := z0 + 719468
  let era := (if 0 ≤ z then z else z - 146096) / 146097
  let doe := z - era * 146097
  let yoe := (doe - doe / 1460 + doe / 36524 - doe / 146096) / 365
  let y := yoe + era * 400
  let doy := doe - (365 * yoe + yoe / 4 - yoe / 100)
  let mp := (5 * doy + 2) / 153
  let d := doy - (153 * mp + 2) / 5 + 1
  let m := mp + (if mp < 10 then 3 else -9)
  (y + (if m ≤ 2 then 1 else 0), m, d)

/-- Calendar date carried by an input row, already parsed from the
`MM/DD/YYYY` date column (`Transaction Date` / `Posting Date` / `Post Date`). -/
structure Date where
  year : Int
  month : Int
  day : Int
deriving DecidableEq, Repr

/-- One CSV input row, with the fields the program reads: the resolved
date column, `Description`, optional `Category` and `Type` columns, and
the parsed `Amount`. -/
structure Row where
  date : Date
  description : String
  category : Option String
  typeField : Option String
  amount : ℚ
deriving DecidableEq, Repr

/-- Unix timestamp of a row at local midnight:
`int(mktime(strptime(s_date, m/d/Y)))`. -/
def tsOf (r : Row) : Int :=
  86400 * daysFromCivil r.date.year r.date.month r.date.day

/-- Year and month of a timestamp: `strftime(Y-m, localtime(date))`. -/
def monthOf (ts : Int) : Int × Int :=
  ((civilFromDays (ts / 86400)).1, (civilFromDays (ts / 86400)).2.1)

/-! ### Merchant normalizer (`Chase._normalize_merchant`) -/

/-- Upper-case a string, like `str.upper()`. -/
def strUpper (s : String) : String := String.mk (s.data.map Char.toUpper)

/-- Whether `a` starts the string `s`: `s.startswith(a)`. -/
def strStarts (a s : String) : Bool := a.toList.isPrefixOf s.toList

/-- Whether `a` occurs inside `s`: `a in s`. -/
def strContainsSub (a s : String) : Bool := s.toList.tails.any (fun t => a.toList.isPrefixOf t)

/-- Configuration tables passed to `Chase.__init__` as plain data. -/
structure AliasConfig where
  startswithAliases : List (String × String) := []
  inAliases : List (String × String) := []
  categoriesByMerchant : List (String × String) := []
deriving DecidableEq, Repr

/-- First target whose alias key matches the merchant under `test`; the
`for alias, target in ...: if test: return target` loop shape. -/
def scanAliases (m : String) (test : String → String → Bool) :
    List (String × String) → Option String
  | [] => none
  | (a, t) :: rest => if test a m then some t else scanAliases m test rest

/-- Map aliases to normalized merchants (`Chase._normalize_merchant`):
upper-case, then first startswith alias, then first substring alias,
else the upper-cased description. -/
def normalizeMerchant (cfg : AliasConfig) (merchant0 : String) : String :=
  let merchant := strUpper merchant0
  match scanAliases merchant strStarts cfg.startswithAliases with
  | some t => t
  | none =>
    match scanAliases merchant strContainsSub cfg.inAliases with
    | some t => t
    | none => merchant

/-- Normalizer written from the words of the specification, for
comparison with `normalizeMerchant`: return the target of the first
alias (in iteration order) whose key is a prefix of the upper-cased
description, else of the first whose key is a substring, else the
upper-cased description unchanged. -/
def normalizeMerchantSpec (cfg : AliasConfig) (desc : String) : String :=
  let u := strUpper desc
  match cfg.startswithAliases.find? (fun p => strStarts p.1 u) with
  | some p => p.2
  | none =>
    match cfg.inAliases.find? (fun p => strContainsSub p.1 u) with
    | some p => p.2
    | none => u

/-! ### Aggregation store (`MerchantData`, `CategoryData`, ingestion) -/

/-- Data for a single merchant within a category (`MerchantData`). -/
structure MerchantData where
  total : ℚ := 0
  count : Nat := 0
  transactions : List Row := []
deriving DecidableEq, Repr

/-- Data for a single category (`CategoryData`). -/
structure CategoryData where
  total : ℚ := 0
  count : Nat := 0
  merchants : List (String × MerchantData) := []
  monthlyTotals : List ((Int × Int) × ℚ) := []
  monthlyAverage : ℚ := 0
  monthlyAvg2 : ℚ := 0
deriving DecidableEq, Repr

/-- Mutable state of a `Chase` object touched by ingestion:
`self.categories` and `self.filenames_by_row`. -/
structure ChaseState where
  categories : List (String × CategoryData) := []
  filenamesByRow : List (Row × String) := []
deriving DecidableEq, Repr

/-- Date-range filter: the negation of
`(start and date < start) or (end and date >= end)`; a zero bound means
unset (unbounded). -/
def inWindow (s e date : Int) : Bool :=
  !((decide (s ≠ 0) && decide (date < s)) || (decide (e ≠ 0) && decide (e ≤ date)))

/-- Cross-file dedup check: keep the row unless its signature was
recorded from a different file
(`key in filenames_by_row and filename != filenames_by_row[key]`). -/
def dedupOK (m : List (Row × String)) (f : String) (r : Row) : Bool :=
  match alookup m r with
  | some f0 => decide (f0 = f)
  | none => true

/-- Category of a transaction:
`categories_by_merchant.get(merchant, row.get(Category, row.get(Type, <None>)))`. -/
def resolveCategory (cfg : AliasConfig) (merchant : String) (r : Row) : String :=
  (alookup cfg.categoriesByMerchant merchant).getD (r.category.getD (r.typeField.getD "<None>"))

/-- Merchant-level accumulation of one row:
`mdata.total += amount; mdata.count += 1; mdata.transactions.append(row)`. -/
def mdUpdate (r : Row) (md : MerchantData) : MerchantData :=
  { md with
    total := md.total + r.amount
    count := md.count + 1
    transactions := md.transactions ++ [r] }

/-- Category-level accumulation of one row: category totals and counts,
the merchant entry, and the monthly bucket, each created on first use. -/
def cdUpdate (cfg : AliasConfig) (r : Row) (cd : CategoryData) : CategoryData :=
  { cd with
    total := cd.total + r.amount
    count := cd.count + 1
    merchants := upsert cd.merchants (normalizeMerchant cfg r.description) {} (mdUpdate r)
    monthlyTotals := upsert cd.monthlyTotals (monthOf (tsOf r)) 0 (fun t => t + r.amount) }

/-- Accumulate one accepted row into the categories map
(`_read_csv_file`, accumulation part). -/
def accumulateRow (cfg : AliasConfig) (r : Row)
    (cats : List (String × CategoryData)) : List (String × CategoryData) :=
  upsert cats (resolveCategory cfg (normalizeMerchant cfg r.description) r) {}
    (cdUpdate cfg r)

/-- Process one CSV row (`_read_csv_file` loop body): date filter, then
cross-file dedup, then record the filename and accumulate. -/
def processRow (cfg : AliasConfig) (fname : String) (s e : Int)
    (st : ChaseState) (r : Row) : ChaseState :=
  if inWindow s e (tsOf r) then
    if dedupOK st.filenamesByRow fname r then
      { categories := accumulateRow cfg r st.categories
        filenamesByRow := aset st.filenamesByRow r fname }
    else st
  else st

/-- Read one CSV file (`_read_csv_file`). -/
def readCsvFile (cfg : AliasConfig) (fname : String) (s e : Int)
    (st : ChaseState) (rows : List Row) : ChaseState :=
  rows.foldl (processRow cfg fname s e) st

/-- Read all input files into memory (`read_input_files`); a file is a
name together with its parsed rows. -/
def readInputFiles (cfg : AliasConfig) (files : List (String × List Row))
    (s e : Int) : ChaseState :=
  files.foldl (fun st fr => readCsvFile cfg fr.1 s e st fr.2) {}

/-! ### Instrumented loader, for the loader contract

The loader slice of `_read_csv_file` (date filter and dedup) with the
accepted rows recorded in order; it shares `inWindow` and `dedupOK`
with `processRow`. -/

/-- All rows of all files in input order, each tagged with its file. -/
def flattenFiles (files : List (String × List Row)) : List (String × Row) :=
  (files.map (fun fr => fr.2.map (fun r => (fr.1, r)))).flatten

/-- One loader step over the dedup map and the accepted-row list. -/
def loadStep (s e : Int) (st : List (Row × String) × List (String × Row))
    (fr : String × Row) : List (Row × String) × List (String × Row) :=
  if inWindow s e (tsOf fr.2) then
    if dedupOK st.1 fr.1 fr.2 then (aset st.1 fr.2 fr.1, st.2 ++ [fr]) else st
  else st

/-- Rows emitted (accepted) by the loader, in input order. -/
def loadRows (files : List (String × List Row)) (s e : Int) : List (String × Row) :=
  ((flattenFiles files).foldl (loadStep s e) ([], [])).2

/-- Date window written from the words of the specification: keep rows
whose date `d` satisfies (start unset or `d >= start`) and (end unset or
`d < end`), a half-open window with 0 meaning unset. -/
def specInWindow (s e date : Int) : Bool :=
  decide ((s = 0 ∨ s ≤ date) ∧ (e = 0 ∨ date < e))

/-- File of the first in-window sighting of signature `r` in `prev`. -/
def firstSightingFile (prev : List (String × Row)) (r : Row) : Option String :=
  (prev.find? (fun p => decide (p.2 = r))).map (fun p => p.1)

/-- Loader acceptance written from the words of the specification: keep
a row unless its signature was previously seen from a different file
(first file wins). -/
def specKeeps (prev : List (String × Row)) (f : String) (r : Row) : Bool :=
  match firstSightingFile prev r with
  | some f0 => decide (f0 = f)
  | none => true

/-- Loader written from the words of the specification, recursing over
the tagged row stream with the list of previously sighted in-window
rows as `prev`. -/
def loadRowsSpecGo (s e : Int) (prev : List (String × Row)) :
    List (String × Row) → List (String × Row)
  | [] => []
  | fr :: rest =>
    if specInWindow s e (tsOf fr.2) then
      if specKeeps prev fr.1 fr.2 then fr :: loadRowsSpecGo s e (prev ++ [fr]) rest
      else loadRowsSpecGo s e (prev ++ [fr]) rest
    else loadRowsSpecGo s e prev rest

/-- Specification-side loader over a list of files. -/
def loadRowsSpec (files : List (String × List Row)) (s e : Int) : List (String × Row) :=
  loadRowsSpecGo s e [] (flattenFiles files)

/-! ### Report passes over the frozen snapshot -/

/-- Effect of `print_report` on the categories snapshot: it only reads
and prints, so the snapshot is returned unchanged. -/
def printReportEffect (cats : List (String × CategoryData)) : List (String × CategoryData) :=
  cats

/-- Per-category mutation performed by `print_monthly_report`: it sums
the monthly totals and stores `monthly_average` (over the requested
span) and `monthly_avg2` (over months with data) on the category. -/
def monthlyReportUpdate (nmonths : Nat) (cd : CategoryData) : CategoryData :=
  let categoryTotal := (cd.monthlyTotals.map (fun p => p.2)).sum
  { cd with
    monthlyAverage := categoryTotal / (nmonths : ℚ)
    monthlyAvg2 := categoryTotal / (cd.monthlyTotals.length : ℚ) }

/-- Effect of `print_monthly_report` on the categories snapshot: every
category not skipped by the `--category` option gets its two derived
average fields written. -/
def printMonthlyReportEffect (optCategory : Option String) (nmonths : Nat)
    (cats : List (String × CategoryData)) : List (String × CategoryData) :=
  cats.map (fun p =>
    match optCategory with
    | some c => if c = p.1 then (p.1, monthlyReportUpdate nmonths p.2) else p
    | none => (p.1, monthlyReportUpdate nmonths p.2))

/-- Effect of `print_recurring_report` and `_detect_recurring_merchants`
on the snapshot: read-only, unchanged. -/
def recurringReportEffect (cats : List (String × CategoryData)) :
    List (String × CategoryData) :=
  cats

/-- Effect of the chart pass (`chart.py`) on the snapshot: read-only. -/
def chartEffect (cats : List (String × CategoryData)) : List (String × CategoryData) :=
  cats

/-- Effect of the interactive browser (`interactive.py`) on the
snapshot: read-only. -/
def browserEffect (cats : List (String × CategoryData)) : List (String × CategoryData) :=
  cats

/-! ### Recurrence detector (`_analyze_merchant_recurrence`)

The wall-clock `time()` read by the recency gate is passed in as the
parameter `now` (seconds). -/

/-- Output record of the recurrence detector: merchant, distinct-month
count, mean filtered absolute amount, and its annualization. -/
structure Pattern where
  merchant : String
  count : Nat
  avgAmount : ℚ
  annualCost : ℚ
deriving DecidableEq, Repr

/-- Mode filter: drop amounts of the wrong sign for the requested mode
and take absolute values, keeping each timestamp. -/
def signFilter (income : Bool) (transactions : List Row) : List (Int × ℚ) :=
  transactions.filterMap (fun txn =>
    if income then
      if txn.amount ≤ 0 then none else some (tsOf txn, |txn.amount|)
    else
      if 0 ≤ txn.amount then none else some (tsOf txn, |txn.amount|))

/-- Lower median: element at index `len // 2` of the ascending sort
(`amounts[len(amounts) // 2]`); 0 for an empty list. -/
def lowerMedian (l : List ℚ) : ℚ :=
  (sortAsc l).getD ((sortAsc l).length / 2) 0

/-- Outlier removal: keep amounts `>= 0.5 * median` of the incoming
absolute amounts. -/
def outlierFilter (txnData : List (Int × ℚ)) : List (Int × ℚ) :=
  let m := lowerMedian (txnData.map (fun p => p.2))
  txnData.filter (fun p => decide (m * (1 / 2) ≤ p.2))

/-- Distinct calendar months of the surviving transactions (the Python
`set` of `strftime(Y-m, ...)` keys, counted by `dedup`). -/
def monthsOf (txnData : List (Int × ℚ)) : List (Int × Int) :=
  (txnData.map (fun p => monthOf p.1)).dedup

/-- Mean of consecutive day gaps of an ascending date list. -/
def meanGap (dates : List Int) : ℚ :=
  let gaps := (dates.zip dates.tail).map (fun p => ((p.2 - p.1 : Int) : ℚ) / 86400)
  gaps.sum / (gaps.length : ℚ)

/-- Analyze the pooled transactions of one merchant for a recurring
pattern (`_analyze_merchant_recurrence`): minimum count, sign filter,
outlier removal, distinct-month gate, amount-consistency gate, mean
interval gate, recency gate, then the emitted record. -/
def analyzeMerchantRecurrence (merchant : String) (transactions : List Row)
    (income : Bool) (now : ℚ) : Option Pattern :=
  if transactions.length < 3 then none else
  let txnData := signFilter income transactions
  if txnData.length < 3 then none else
  let txnData2 := outlierFilter txnData
  if txnData2.length < 3 then none else
  let months := monthsOf txnData2
  if months.length < 3 then none else
  let amounts := sortAsc (txnData2.map (fun p => p.2))
  let medianAmount := amounts.getD (amounts.length / 2) 0
  if !(amounts.all (fun amt => decide (|amt - medianAmount| / medianAmount ≤ 1 / 5))) then
    none
  else
  let dates := sortAsc (txnData2.map (fun p => p.1))
  let finishRes : Option Pattern :=
    if ((dates.getLastD 0 : Int) : ℚ) < now - 63072000 then none
    else
      some
        { merchant := merchant
          count := months.length
          avgAmount := amounts.sum / (amounts.length : ℚ)
          annualCost := amounts.sum / (amounts.length : ℚ) * 12 }
  if 2 ≤ dates.length then
    if meanGap dates < 20 ∨ 40 < meanGap dates then none else finishRes
  else finishRes

/-- Pool every transaction list by merchant across categories
(`_detect_recurring_merchants`, defaultdict-extend loop). -/
def poolMerchants (cats : List (String × CategoryData)) : List (String × List Row) :=
  cats.foldl
    (fun acc p =>
      p.2.merchants.foldl
        (fun acc2 mp => upsert acc2 mp.1 [] (fun l => l ++ mp.2.transactions)) acc)
    []

/-- Detect merchants with recurring payment patterns
(`_detect_recurring_merchants`): analyze each pooled merchant and keep
the emitted records. -/
def detectRecurringMerchants (cats : List (String × CategoryData))
    (income : Bool) (now : ℚ) : List Pattern :=
  (poolMerchants cats).filterMap (fun p => analyzeMerchantRecurrence p.1 p.2 income now)

/-! ### Totality-instrumented recurrence detector

The same pipeline with every list indexing and every division guarded:
an out-of-range index or a zero divisor (a raised `IndexError` or
`ZeroDivisionError` in the Python) surfaces as `Except.error ()`. -/

/-- Checked list indexing. -/
def getChecked {α : Type} (l : List α) (i : Nat) : Except Unit α :=
  match l.get? i with
  | some x => Except.ok x
  | none => Except.error ()

/-- Checked division. -/
def divChecked (a b : ℚ) : Except Unit ℚ :=
  if b = 0 then Except.error () else Except.ok (a / b)

/-- Checked elementwise computation of the relative deviations
`abs(amt - median) / median`. -/
def mapDivChecked (m : ℚ) : List ℚ → Except Unit (List ℚ)
  | [] => Except.ok []
  | a :: t =>
    match divChecked |a - m| m, mapDivChecked m t with
    | Except.ok x, Except.ok xs => Except.ok (x :: xs)
    | Except.error u, _ => Except.error u
    | Except.ok _, Except.error u => Except.error u

/-- Recurrence analysis with every indexing and division checked;
`Except.error ()` marks an operation the Python runtime would have
raised on. -/
def analyzeChecked (merchant : String) (transactions : List Row)
    (income : Bool) (now : ℚ) : Except Unit (Option Pattern) :=
  if transactions.length < 3 then Except.ok none else
  let txnData := signFilter income transactions
  if txnData.length < 3 then Except.ok none else
  let amountsOnly := sortAsc (txnData.map (fun p => p.2))
  match getChecked amountsOnly (amountsOnly.length / 2) with
  | Except.error u => Except.error u
  | Except.ok initialMedian =>
  let txnData2 := txnData.filter (fun p => decide (initialMedian * (1 / 2) ≤ p.2))
  if txnData2.length < 3 then Except.ok none else
  let months := monthsOf txnData2
  if months.length < 3 then Except.ok none else
  let amounts := sortAsc (txnData2.map (fun p => p.2))
  match getChecked amounts (amounts.length / 2) with
  | Except.error u => Except.error u
  | Except.ok medianAmount =>
  match mapDivChecked medianAmount amounts with
  | Except.error u => Except.error u
  | Except.ok devs =>
  if !(devs.all (fun dev => decide (dev ≤ 1 / 5))) then Except.ok none else
  let dates := sortAsc (txnData2.map (fun p => p.1))
  let finishRes : Except Unit (Option Pattern) :=
    match dates.getLast? with
    | none => Except.error ()
    | some lastDate =>
      if ((lastDate : Int) : ℚ) < now - 63072000 then Except.ok none
      else
        match divChecked amounts.sum (amounts.length : ℚ) with
        | Except.error u => Except.error u
        | Except.ok avgAmount =>
          Except.ok (some
            { merchant := merchant
              count := months.length
              avgAmount := avgAmount
              annualCost := avgAmount * 12 })
  if 2 ≤ dates.length then
    let gaps := (dates.zip dates.tail).map (fun p => ((p.2 - p.1 : Int) : ℚ) / 86400)
    match divChecked gaps.sum (gaps.length : ℚ) with
    | Except.error u => Except.error u
    | Except.ok avgInterval =>
      if avgInterval < 20 ∨ 40 < avgInterval then Except.ok none else finishRes
  else finishRes

/-! ### Concrete scenario inputs from the specification -/

/-- Scenario row `01/15/2024,TRADER JOES #1,Groceries,-45.00`. -/
def tj1 : Row :=
  { date := ⟨2024, 1, 15⟩, description := "TRADER JOES #1", category := some "Groceries",
    typeField := none, amount := -45 }

/-- Scenario row `02/15/2024,TRADER JOES #2,Groceries,-45.00`. -/
def tj2 : Row :=
  { date := ⟨2024, 2, 15⟩, description := "TRADER JOES #2", category := some "Groceries",
    typeField := none, amount := -45 }

/-- Scenario row `03/15/2024,TRADER JOES #3,Groceries,-45.00`. -/
def tj3 : Row :=
  { date := ⟨2024, 3, 15⟩, description := "TRADER JOES #3", category := some "Groceries",
    typeField := none, amount := -45 }

/-- Scenario substring alias table mapping TRADER JOES to itself. -/
def cfgTJ : AliasConfig := { inAliases := [("TRADER JOES", "TRADER JOES")] }

/-- The category aggregate produced by ingesting the three scenario rows. -/
def tjCat : CategoryData :=
  { total := -135, count := 3,
    merchants :=
      [("TRADER JOES",
        { total := -135, count := 3, transactions := [tj1, tj2, tj3] })],
    monthlyTotals := [((2024, 1), -45), ((2024, 2), -45), ((2024, 3), -45)],
    monthlyAverage := 0, monthlyAvg2 := 0 }

/-- The snapshot produced by ingesting the three scenario rows. -/
def tjCats : List (String × CategoryData) := [("Groceries", tjCat)]

/-- Rows of a merchant with amounts -100, -100, -100, -1000 over four
distinct months. -/
def acmeRows : List Row :=
  [{ date := ⟨2024, 1, 15⟩, description := "ACME", category := some "Shopping",
     typeField := none, amount := -100 },
   { date := ⟨2024, 2, 15⟩, description := "ACME", category := some "Shopping",
     typeField := none, amount := -100 },
   { date := ⟨2024, 3, 15⟩, description := "ACME", category := some "Shopping",
     typeField := none, amount := -100 },
   { date := ⟨2024, 4, 15⟩, description := "ACME", category := some "Shopping",
     typeField := none, amount := -1000 }]

/-- Rows of a merchant with four equal expenses spaced 5 days apart. -/
def gymRows : List Row :=
  [{ date := ⟨2024, 3, 1⟩, description := "GYM", category := some "Health",
     typeField := none, amount := -50 },
   { date := ⟨2024, 3, 6⟩, description := "GYM", category := some "Health",
     typeField := none, amount := -50 },
   { date := ⟨2024, 3, 11⟩, description := "GYM", category := some "Health",
     typeField := none, amount := -50 },
   { date := ⟨2024, 3, 16⟩, description := "GYM", category := some "Health",
     typeField := none, amount := -50 }]

/-- A single expense row used for the duplicate-load and report-pass
experiments. -/
def coffeeRow : Row :=
  { date := ⟨2024, 5, 1⟩, description := "COFFEE", category := some "Dining",
    typeField := none, amount := -5 }

/-! ### General lemmas about the container operations -/

theorem length_insertAsc {α : Type} [LinearOrder α] (x : α) (l : List α) :
    (insertAsc x l).length = l.length + 1 := by
  induction l with
  | nil => rfl
  | cons y t ih =>
    by_cases h : x ≤ y <;> simp [insertAsc, h, ih]

theorem mem_insertAsc {α : Type} [LinearOrder α] {a x : α} {l : List α} :
    a ∈ insertAsc x l ↔ a = x ∨ a ∈ l := by
  induction l with
  | nil => simp [insertAsc]
  | cons y t ih =>
    by_cases h : x ≤ y
    · simp [insertAsc, h, ih]
    · simp [insertAsc, h, ih]
      tauto

theorem length_sortAsc {α : Type} [LinearOrder α] (l : List α) :
    (sortAsc l).length = l.length := by
  induction l with
  | nil => rfl
  | cons x t ih => simp [sortAsc, length_insertAsc, ih]

theorem mem_sortAsc {α : Type} [LinearOrder α] {a : α} {l : List α} :
    a ∈ sortAsc l ↔ a ∈ l := by
  induction l with
  | nil => simp [sortAsc]
  | cons x t ih => simp [sortAsc, mem_insertAsc, ih]

theorem upsert_ne_nil {α β : Type} [DecidableEq α] (l : List (α × β)) (k : α) (d : β)
    (f : β → β) : upsert l k d f ≠ [] := by
  cases l with
  | nil => simp [upsert]
  | cons p t =>
    obtain ⟨k1, v⟩ := p
    by_cases h : k1 = k <;> simp [upsert, h]

theorem sum_map_upsert {α β M : Type} [DecidableEq α] [AddCommMonoid M]
    (g : β → M) (l : List (α × β)) (k : α) (d : β) (f : β → β) (x : M)
    (hd : g d = 0) (hf : ∀ v, g (f v) = g v + x) :
    ((upsert l k d f).map (fun p => g p.2)).sum = (l.map (fun p => g p.2)).sum + x := by
  induction l with
  | nil => simp [upsert, hf d, hd]
  | cons p t ih =>
    obtain ⟨k1, v⟩ := p
    by_cases h : k1 = k
    · simp [upsert, h, hf v, add_assoc, add_comm, add_left_comm]
    · simp [upsert, h, ih, add_assoc]

theorem forall_upsert {α β : Type} [DecidableEq α] (P : β → Prop) (l : List (α × β))
    (k : α) (d : β) (f : β → β) (hl : ∀ p ∈ l, P p.2) (hf : ∀ v, P v → P (f v))
    (hd : P (f d)) : ∀ p ∈ upsert l k d f, P p.2 := by
  induction l with
  | nil =>
    intro p hp
    simp [upsert] at hp
    simpa [hp]
  | cons q t ih =>
    obtain ⟨k1, v⟩ := q
    by_cases h : k1 = k
    · intro p hp
      simp [upsert, h] at hp
      rcases hp with hp | hp
      · simpa [hp] using hf v (hl (k1, v) (by simp))
      · exact hl p (List.mem_cons_of_mem _ hp)
    · intro p hp
      simp only [upsert, h, if_false, List.mem_cons] at hp
      rcases hp with hp | hp
      · simpa [hp] using hl (k1, v) (by simp)
      · exact ih (fun q hq => hl q (List.mem_cons_of_mem _ hq)) p hp

theorem foldl_preserve {σ α : Type} {P : σ → Prop} (f : σ → α → σ)
    (hf : ∀ s a, P s → P (f s a)) : ∀ (l : List α) (s : σ), P s → P (l.foldl f s) := by
  intro l
  induction l with
  | nil => intro s hs; simpa using hs
  | cons a t ih => intro s hs; exact ih _ (hf s a hs)

/-! ### Aggregation invariants -/

/-- Bookkeeping invariant of a merchant aggregate: the running total is
the sum of the stored transaction amounts and the running count is
their number. -/
def merchantOK (md : MerchantData) : Prop :=
  md.total = (md.transactions.map (fun t => t.amount)).sum ∧
    md.count = md.transactions.length

/-- Bookkeeping invariant of a category aggregate: the category total
agrees with the merchant totals, the monthly buckets, and the stored
transaction amounts; the category count agrees with the merchant
counts; and every merchant aggregate is internally consistent. -/
def categoryOK (cd : CategoryData) : Prop :=
  cd.total = (cd.merchants.map (fun m => m.2.total)).sum ∧
  cd.total = (cd.monthlyTotals.map (fun b => b.2)).sum ∧
  cd.total = (cd.merchants.map (fun m => (m.2.transactions.map (fun t => t.amount)).sum)).sum ∧
  cd.count = (cd.merchants.map (fun m => m.2.count)).sum ∧
  ∀ m ∈ cd.merchants, merchantOK m.2

theorem merchantOK_empty : merchantOK {} := by
  constructor <;> rfl

theorem merchantOK_mdUpdate (r : Row) (md : MerchantData) (h : merchantOK md) :
    merchantOK (mdUpdate r md) := by
  obtain ⟨h1, h2⟩ := h
  constructor
  · simp [mdUpdate, h1]
  · simp [mdUpdate, h2]

theorem categoryOK_empty : categoryOK {} := by
  refine ⟨rfl, rfl, rfl, rfl, ?_⟩
  intro m hm
  simp at hm

theorem categoryOK_cdUpdate (cfg : AliasConfig) (r : Row) (cd : CategoryData)
    (h : categoryOK cd) : categoryOK (cdUpdate cfg r cd) := by
  obtain ⟨h1, h2, h3, h4, h5⟩ := h
  have hm1 := sum_map_upsert (fun md : MerchantData => md.total) cd.merchants
    (normalizeMerchant cfg r.description) {} (mdUpdate r) r.amount rfl
    (fun v => by simp [mdUpdate])
  have hm3 := sum_map_upsert
    (fun md : MerchantData => (md.transactions.map (fun t => t.amount)).sum) cd.merchants
    (normalizeMerchant cfg r.description) {} (mdUpdate r) r.amount rfl
    (fun v => by simp [mdUpdate])
  have hm4 := sum_map_upsert (fun md : MerchantData => md.count) cd.merchants
    (normalizeMerchant cfg r.description) {} (mdUpdate r) 1 rfl (fun v => rfl)
  have hb2 := sum_map_upsert (fun b : ℚ => b) cd.monthlyTotals (monthOf (tsOf r)) 0
    (fun t => t + r.amount) r.amount rfl (fun v => rfl)
  refine ⟨?_, ?_, ?_, ?_, ?_⟩
  · simp only [cdUpdate, hm1, h1]
  · simp only [cdUpdate, hb2, h2]
  · simp only [cdUpdate, hm3, h3]
  · simp only [cdUpdate, hm4, h4]
  · simp only [cdUpdate]
    exact forall_upsert merchantOK _ _ _ _ h5 (merchantOK_mdUpdate r)
      (merchantOK_mdUpdate r _ merchantOK_empty)

/-- Invariant of the whole categories map. -/
def catsOK (cats : List (String × CategoryData)) : Prop :=
  ∀ p ∈ cats, categoryOK p.2

theorem catsOK_accumulateRow (cfg : AliasConfig) (r : Row)
    (cats : List (String × CategoryData)) (h : catsOK cats) :
    catsOK (accumulateRow cfg r cats) :=
  forall_upsert categoryOK _ _ _ _ h (categoryOK_cdUpdate cfg r)
    (categoryOK_cdUpdate cfg r _ categoryOK_empty)

theorem catsOK_processRow (cfg : AliasConfig) (fname : String) (s e : Int)
    (st : ChaseState) (r : Row) (h : catsOK st.categories) :
    catsOK (processRow cfg fname s e st r).categories := by
  unfold processRow
  split
  · split
    · exact catsOK_accumulateRow cfg r st.categories h
    · exact h
  · exact h

theorem catsOK_readCsvFile (cfg : AliasConfig) (fname : String) (s e : Int)
    (st : ChaseState) (rows : List Row) (h : catsOK st.categories) :
    catsOK (readCsvFile cfg fname s e st rows).categories := by
  unfold readCsvFile
  exact @foldl_preserve ChaseState Row (fun st2 => catsOK st2.categories) _
    (fun st2 r h2 => catsOK_processRow cfg fname s e st2 r h2) rows st h

theorem catsOK_readInputFiles (cfg : AliasConfig) (files : List (String × List Row))
    (s e : Int) : catsOK (readInputFiles cfg files s e).categories := by
  unfold readInputFiles
  refine @foldl_preserve ChaseState (String × List Row) (fun st => catsOK st.categories)
    _ ?_ files {} ?_
  · intro st fr h
    exact catsOK_readCsvFile cfg fr.1 s e st fr.2 h
  · intro p hp
    simp at hp

/-- Non-emptiness invariant of a category aggregate: a category exists
only after at least one transaction was accumulated under it. -/
def categoryNE (cd : CategoryData) : Prop :=
  1 ≤ cd.count ∧ cd.merchants ≠ [] ∧ 0 < cd.monthlyTotals.length ∧
    ∀ m ∈ cd.merchants, 1 ≤ m.2.count ∧ m.2.transactions ≠ []

theorem categoryNE_cdUpdate (cfg : AliasConfig) (r : Row) (cd : CategoryData)
    (h : ∀ m ∈ cd.merchants, 1 ≤ m.2.count ∧ m.2.transactions ≠ []) :
    categoryNE (cdUpdate cfg r cd) := by
  refine ⟨?_, ?_, ?_, ?_⟩
  · simp [cdUpdate]
  · simp only [cdUpdate]
    exact upsert_ne_nil _ _ _ _
  · simp only [cdUpdate]
    have := upsert_ne_nil cd.monthlyTotals (monthOf (tsOf r)) 0 (fun t => t + r.amount)
    exact List.length_pos.2 this
  · simp only [cdUpdate]
    refine forall_upsert (fun md : MerchantData => 1 ≤ md.count ∧ md.transactions ≠ []) _ _ _ _ h ?_ ?_
    · intro v hv
      refine ⟨?_, ?_⟩
      · simp [mdUpdate]
      · simp [mdUpdate]
    · refine ⟨?_, ?_⟩
      · simp [mdUpdate]
      · simp [mdUpdate]

/-- Non-emptiness invariant of the whole categories map. -/
def catsNE (cats : List (String × CategoryData)) : Prop :=
  ∀ p ∈ cats, categoryNE p.2

theorem catsNE_accumulateRow (cfg : AliasConfig) (r : Row)
    (cats : List (String × CategoryData)) (h : catsNE cats) :
    catsNE (accumulateRow cfg r cats) := by
  refine forall_upsert categoryNE _ _ _ _ h ?_ ?_
  · intro v hv
    exact categoryNE_cdUpdate cfg r v hv.2.2.2
  · refine categoryNE_cdUpdate cfg r {} ?_
    intro m hm
    simp at hm

theorem catsNE_processRow (cfg : AliasConfig) (fname : String) (s e : Int)
    (st : ChaseState) (r : Row) (h : catsNE st.categories) :
    catsNE (processRow cfg fname s e st r).categories := by
  unfold processRow
  split
  · split
    · exact catsNE_accumulateRow cfg r st.categories h
    · exact h
  · exact h

theorem catsNE_readInputFiles (cfg : AliasConfig) (files : List (String × List Row))
    (s e : Int) : catsNE (readInputFiles cfg files s e).categories := by
  unfold readInputFiles
  refine @foldl_preserve ChaseState (String × List Row) (fun st => catsNE st.categories)
    _ ?_ files {} ?_
  · intro st fr h
    unfold readCsvFile
    exact @foldl_preserve ChaseState Row (fun st2 => catsNE st2.categories) _
      (fun st2 r h2 => catsNE_processRow cfg fr.1 s e st2 r h2) fr.2 st h
  · intro p hp
    simp at hp

/-! ### Evaluation of the TRADER JOES scenario ingestion -/

theorem tjNorm1 : normalizeMerchant cfgTJ tj1.description = "TRADER JOES" := by decide

theorem tjNorm2 : normalizeMerchant cfgTJ tj2.description = "TRADER JOES" := by decide

theorem tjNorm3 : normalizeMerchant cfgTJ tj3.description = "TRADER JOES" := by decide

theorem tjRes1 : resolveCategory cfgTJ "TRADER JOES" tj1 = "Groceries" := by decide

theorem tjRes2 : resolveCategory cfgTJ "TRADER JOES" tj2 = "Groceries" := by decide

theorem tjRes3 : resolveCategory cfgTJ "TRADER JOES" tj3 = "Groceries" := by decide

theorem tjMonth1 : monthOf (tsOf tj1) = (2024, 1) := by decide

theorem tjMonth2 : monthOf (tsOf tj2) = (2024, 2) := by decide

theorem tjMonth3 : monthOf (tsOf tj3) = (2024, 3) := by decide

theorem tjWin1 : inWindow 0 0 (tsOf tj1) = true := by decide

theorem tjWin2 : inWindow 0 0 (tsOf tj2) = true := by decide

theorem tjWin3 : inWindow 0 0 (tsOf tj3) = true := by decide

set_option maxHeartbeats 1000000 in
theorem tj_ingest :
    (readInputFiles cfgTJ [("f", [tj1, tj2, tj3])] 0 0).categories = tjCats := by
  simp only [readInputFiles, readCsvFile, List.foldl_cons, List.foldl_nil, processRow,
    tjWin1, tjWin2, tjWin3, if_true, dedupOK, alookup, aset, upsert, accumulateRow,
    cdUpdate, mdUpdate, tjNorm1, tjNorm2, tjNorm3, tjRes1, tjRes2, tjRes3,
    tjMonth1, tjMonth2, tjMonth3]
  norm_num [tj1, tj2, tj3, cfgTJ, tjCats, tjCat, resolveCategory, alookup, upsert, aset,
    dedupOK]

/-! ### Claim theorems -/

/-- C1: for every ingested batch, each category total equals the sum of
its merchant totals, equals the sum of its monthly-bucket totals, and
equals the sum of all transaction amounts stored under its merchants;
each category count is the sum of its merchant counts, and each
merchant count is the length of that merchant transaction list.  Python
float arithmetic is modelled by exact rationals, so the equalities are
exact. -/
theorem c1_category_aggregation_invariant (cfg : AliasConfig)
    (files : List (String × List Row)) (s e : Int) :
    ∀ p ∈ (readInputFiles cfg files s e).categories,
      p.2.total = (p.2.merchants.map (fun m => m.2.total)).sum ∧
      p.2.total = (p.2.monthlyTotals.map (fun b => b.2)).sum ∧
      p.2.total =
        (p.2.merchants.map (fun m => (m.2.transactions.map (fun t => t.amount)).sum)).sum ∧
      p.2.count = (p.2.merchants.map (fun m => m.2.count)).sum ∧
      ∀ m ∈ p.2.merchants,
        m.2.total = (m.2.transactions.map (fun t => t.amount)).sum ∧
        m.2.count = m.2.transactions.length := by
  intro p hp
  exact catsOK_readInputFiles cfg files s e p hp

/-- Witness for C1 at the TRADER JOES scenario batch. -/
theorem c1_category_aggregation_invariant_witness :
    ("Groceries", tjCat) ∈ (readInputFiles cfgTJ [("f", [tj1, tj2, tj3])] 0 0).categories ∧
      (tjCat.total = (tjCat.merchants.map (fun m => m.2.total)).sum ∧
       tjCat.total = (tjCat.monthlyTotals.map (fun b => b.2)).sum ∧
       tjCat.total =
         (tjCat.merchants.map (fun m => (m.2.transactions.map (fun t => t.amount)).sum)).sum ∧
       tjCat.count = (tjCat.merchants.map (fun m => m.2.count)).sum ∧
       ∀ m ∈ tjCat.merchants,
         m.2.total = (m.2.transactions.map (fun t => t.amount)).sum ∧
         m.2.count = m.2.transactions.length) :=
  ⟨by rw [tj_ingest]; simp [tjCats],
   c1_category_aggregation_invariant cfgTJ [("f", [tj1, tj2, tj3])] 0 0 ("Groceries", tjCat)
     (by rw [tj_ingest]; simp [tjCats])⟩

/-- C10: a category key exists only when at least one transaction was
accumulated under it, so every category aggregate has a positive count,
a non-empty merchants map, and a non-empty monthly-totals map, and
every merchant aggregate has a positive count and a non-empty
transaction list; in particular the per-category average over months
with data divides by the positive number of monthly buckets. -/
theorem c10_snapshot_nonempty (cfg : AliasConfig)
    (files : List (String × List Row)) (s e : Int) :
    ∀ p ∈ (readInputFiles cfg files s e).categories,
      1 ≤ p.2.count ∧ p.2.merchants ≠ [] ∧ 0 < p.2.monthlyTotals.length ∧
        ∀ m ∈ p.2.merchants, 1 ≤ m.2.count ∧ m.2.transactions ≠ [] := by
  intro p hp
  exact catsNE_readInputFiles cfg files s e p hp

/-- Witness for C10 at the TRADER JOES scenario batch. -/
theorem c10_snapshot_nonempty_witness :
    ("Groceries", tjCat) ∈ (readInputFiles cfgTJ [("f", [tj1, tj2, tj3])] 0 0).categories ∧
      (1 ≤ tjCat.count ∧ tjCat.merchants ≠ [] ∧ 0 < tjCat.monthlyTotals.length ∧
        ∀ m ∈ tjCat.merchants, 1 ≤ m.2.count ∧ m.2.transactions ≠ []) :=
  ⟨by rw [tj_ingest]; simp [tjCats],
   c10_snapshot_nonempty cfgTJ [("f", [tj1, tj2, tj3])] 0 0 ("Groceries", tjCat)
     (by rw [tj_ingest]; simp [tjCats])⟩

/-! ### Lookup lemmas for the dedup map -/

theorem alookup_aset_self {α β : Type} [DecidableEq α] (l : List (α × β)) (k : α) (v : β) :
    alookup (aset l k v) k = some v := by
  induction l with
  | nil => simp [aset, upsert, alookup]
  | cons p t ih =>
    obtain ⟨k1, w⟩ := p
    by_cases h : k1 = k
    · simp [aset, upsert, h, alookup]
    · simp only [aset, upsert, h, if_false]
      simpa [alookup, h] using ih

theorem alookup_aset_ne {α β : Type} [DecidableEq α] (l : List (α × β)) (k k2 : α) (v : β)
    (h : k2 ≠ k) : alookup (aset l k v) k2 = alookup l k2 := by
  induction l with
  | nil => simp [aset, upsert, alookup, Ne.symm h]
  | cons p t ih =>
    obtain ⟨k1, w⟩ := p
    by_cases h1 : k1 = k
    · subst h1
      simp [aset, upsert, alookup, Ne.symm h]
    · simp only [aset, upsert, h1, if_false]
      by_cases h2 : k1 = k2
      · simp [alookup, h2]
      · simpa [alookup, h2] using ih

/-! ### Single-file reloading

Processing a list of rows under a filename only ever records that
filename in the dedup map; reprocessing the same rows under the same
name is accepted again, and under a different name is dropped
entirely. -/

theorem singleFile_map (cfg : AliasConfig) (n : String) (s e : Int) :
    ∀ (rows : List Row) (st : ChaseState),
      (∀ q : Row, alookup st.filenamesByRow q = none ∨
        alookup st.filenamesByRow q = some n) →
      (∀ q : Row, alookup (readCsvFile cfg n s e st rows).filenamesByRow q = none ∨
        alookup (readCsvFile cfg n s e st rows).filenamesByRow q = some n) ∧
      (∀ r ∈ rows, inWindow s e (tsOf r) = true →
        alookup (readCsvFile cfg n s e st rows).filenamesByRow r = some n) ∧
      (∀ q : Row, alookup st.filenamesByRow q = some n →
        alookup (readCsvFile cfg n s e st rows).filenamesByRow q = some n) := by
  intro rows
  induction rows with
  | nil =>
    intro st h
    refine ⟨h, ?_, ?_⟩
    · intro r hr
      simp at hr
    · intro q hq
      simpa [readCsvFile] using hq
  | cons r rest ih =>
    intro st h
    have hstep : (∀ q : Row, alookup (processRow cfg n s e st r).filenamesByRow q = none ∨
          alookup (processRow cfg n s e st r).filenamesByRow q = some n) ∧
        (inWindow s e (tsOf r) = true →
          alookup (processRow cfg n s e st r).filenamesByRow r = some n) ∧
        (∀ q : Row, alookup st.filenamesByRow q = some n →
          alookup (processRow cfg n s e st r).filenamesByRow q = some n) := by
      unfold processRow
      by_cases hw : inWindow s e (tsOf r) = true
      · have hacc : dedupOK st.filenamesByRow n r = true := by
          unfold dedupOK
          rcases h r with hr | hr <;> simp [hr]
        refine ⟨?_, ?_, ?_⟩
        · intro q
          simp only [hw, hacc, if_true]
          by_cases hq : q = r
          · subst hq
            right
            exact alookup_aset_self _ _ _
          · rw [alookup_aset_ne _ _ _ _ hq]
            exact h q
        · intro _
          simp only [hw, hacc, if_true]
          exact alookup_aset_self _ _ _
        · intro q hq
          simp only [hw, hacc, if_true]
          by_cases hqr : q = r
          · subst hqr
            exact alookup_aset_self _ _ _
          · rw [alookup_aset_ne _ _ _ _ hqr]
            exact hq
      · simp only [Bool.not_eq_true] at hw
        refine ⟨?_, ?_, ?_⟩
        · intro q
          simp only [hw, Bool.false_eq_true, if_false]
          exact h q
        · intro hcon
          rw [hw] at hcon
          cases hcon
        · intro q hq
          simpa [hw] using hq
    obtain ⟨ha, hb, hc⟩ := hstep
    have hrest := ih (processRow cfg n s e st r) ha
    refine ⟨hrest.1, ?_, ?_⟩
    · intro r2 hr2 hwin
      rcases List.mem_cons.1 hr2 with hr2 | hr2
      · subst hr2
        exact hrest.2.2 r2 (hb hwin)
      · exact hrest.2.1 r2 hr2 hwin
    · intro q hq
      exact hrest.2.2 q (hc q hq)

theorem readCsvFile_skips (cfg : AliasConfig) (n1 n2 : String) (s e : Int)
    (hne : n1 ≠ n2) :
    ∀ (rows : List Row) (st : ChaseState),
      (∀ r ∈ rows, inWindow s e (tsOf r) = true →
        alookup st.filenamesByRow r = some n1) →
      readCsvFile cfg n2 s e st rows = st := by
  intro rows
  induction rows with
  | nil =>
    intro st _
    rfl
  | cons r rest ih =>
    intro st h
    have hstep : processRow cfg n2 s e st r = st := by
      unfold processRow
      by_cases hw : inWindow s e (tsOf r) = true
      · have hdrop : dedupOK st.filenamesByRow n2 r = false := by
          unfold dedupOK
          rw [h r (by simp) hw]
          simp [hne]
        simp [hw, hdrop]
      · simp only [Bool.not_eq_true] at hw
        simp [hw]
    show readCsvFile cfg n2 s e (processRow cfg n2 s e st r) rest = st
    rw [hstep]
    exact ih st (fun r2 hr2 hw2 => h r2 (List.mem_cons_of_mem _ hr2) hw2)

/-! ### Evaluation of the single-row COFFEE loads -/

theorem cWin : inWindow 0 0 (tsOf coffeeRow) = true := by decide

theorem cNorm : normalizeMerchant {} coffeeRow.description = "COFFEE" := by decide

theorem cRes : resolveCategory {} "COFFEE" coffeeRow = "Dining" := by decide

theorem cMonth : monthOf (tsOf coffeeRow) = (2024, 5) := by decide

theorem coffee_once :
    (readInputFiles {} [("f", [coffeeRow])] 0 0).categories =
      [("Dining",
        { total := -5, count := 1,
          merchants := [("COFFEE", { total := -5, count := 1, transactions := [coffeeRow] })],
          monthlyTotals := [((2024, 5), -5)], monthlyAverage := 0, monthlyAvg2 := 0 })] := by
  simp only [readInputFiles, readCsvFile, List.foldl_cons, List.foldl_nil, processRow,
    cWin, if_true, dedupOK, alookup, aset, upsert, accumulateRow, cdUpdate, mdUpdate,
    cNorm, cRes, cMonth]
  norm_num [coffeeRow, resolveCategory, alookup, upsert, aset, dedupOK]

theorem coffee_twice :
    (readInputFiles {} [("f", [coffeeRow]), ("f", [coffeeRow])] 0 0).categories =
      [("Dining",
        { total := -10, count := 2,
          merchants :=
            [("COFFEE",
              { total := -10, count := 2, transactions := [coffeeRow, coffeeRow] })],
          monthlyTotals := [((2024, 5), -10)], monthlyAverage := 0, monthlyAvg2 := 0 })] := by
  simp only [readInputFiles, readCsvFile, List.foldl_cons, List.foldl_nil, processRow,
    cWin, if_true, dedupOK, alookup, aset, upsert, accumulateRow, cdUpdate, mdUpdate,
    cNorm, cRes, cMonth]
  norm_num [coffeeRow, resolveCategory, alookup, upsert, aset, dedupOK]

/-- C2 counterexample: loading the same single-row file twice does not
reproduce the single-load aggregates; the category total doubles from
-5 to -10 and the count from 1 to 2, because the dedup drop condition
requires a different filename. -/
theorem c2_counterexample :
    (readInputFiles {} [("f", [coffeeRow]), ("f", [coffeeRow])] 0 0).categories ≠
      (readInputFiles {} [("f", [coffeeRow])] 0 0).categories := by
  rw [coffee_once, coffee_twice]
  decide

/-- C2 amended: loading the same file (same name, same rows) twice is
equivalent to loading one file holding the rows twice, so every
in-window row is ingested again and the aggregates double rather than
stay identical; loading the same rows under a second, different
filename is dropped entirely by the cross-file dedup and does yield the
single-load state. -/
theorem c2_amended (cfg : AliasConfig) (n n2 : String) (rows : List Row) (s e : Int)
    (hne : n ≠ n2) :
    readInputFiles cfg [(n, rows), (n, rows)] s e =
      readInputFiles cfg [(n, rows ++ rows)] s e ∧
    readInputFiles cfg [(n, rows), (n2, rows)] s e =
      readInputFiles cfg [(n, rows)] s e := by
  constructor
  · simp only [readInputFiles, List.foldl_cons, List.foldl_nil, readCsvFile,
      List.foldl_append]
  · have h0 : readInputFiles cfg [(n, rows), (n2, rows)] s e =
        readCsvFile cfg n2 s e (readCsvFile cfg n s e {} rows) rows := by
      simp only [readInputFiles, List.foldl_cons, List.foldl_nil]
    have h1 : readInputFiles cfg [(n, rows)] s e = readCsvFile cfg n s e {} rows := by
      simp only [readInputFiles, List.foldl_cons, List.foldl_nil]
    rw [h0, h1]
    have hmap := singleFile_map cfg n s e rows {} (by intro q; left; rfl)
    exact readCsvFile_skips cfg n n2 s e hne rows _ (fun r hr hw => hmap.2.1 r hr hw)

/-- Witness for the C2 amended theorem at the COFFEE row. -/
theorem c2_amended_witness :
    "f" ≠ "g" ∧
      (readInputFiles {} [("f", [coffeeRow]), ("f", [coffeeRow])] 0 0 =
        readInputFiles {} [("f", [coffeeRow] ++ [coffeeRow])] 0 0 ∧
      readInputFiles {} [("f", [coffeeRow]), ("g", [coffeeRow])] 0 0 =
        readInputFiles {} [("f", [coffeeRow])] 0 0) :=
  ⟨by decide, c2_amended {} "f" "g" [coffeeRow] 0 0 (by decide)⟩

/-! ### Normalizer refinement -/

theorem scanAliases_eq_find (m : String) (test : String → String → Bool)
    (l : List (String × String)) :
    scanAliases m test l = (l.find? (fun p => test p.1 m)).map (fun p => p.2) := by
  induction l with
  | nil => rfl
  | cons p t ih =>
    obtain ⟨a, tgt⟩ := p
    by_cases h : test a m <;> simp [scanAliases, List.find?, h, ih]

/-- C8: merchant normalization is the pure function of the description
and the two ordered alias tables described by the specification: it
upper-cases the description, returns the target of the first startswith
alias whose key begins it, else the target of the first substring alias
whose key occurs in it, else the upper-cased description itself;
startswith rules are scanned before substring rules and the first match
wins, so identical inputs always produce identical outputs. -/
theorem c8_normalizer_first_match (cfg : AliasConfig) (desc : String) :
    normalizeMerchant cfg desc = normalizeMerchantSpec cfg desc := by
  simp only [normalizeMerchant, normalizeMerchantSpec]
  rw [scanAliases_eq_find, scanAliases_eq_find]
  cases cfg.startswithAliases.find? (fun p => strStarts p.1 (strUpper desc)) with
  | none =>
    simp only [Option.map_none]
    cases cfg.inAliases.find? (fun p => strContainsSub p.1 (strUpper desc)) with
    | none => rfl
    | some p => rfl
  | some p => rfl

/-! ### Report passes and the frozen snapshot -/

/-- C9 counterexample: the monthly-report pass is not read-only on the
snapshot; on the ingested single-row COFFEE snapshot it overwrites the
stored `monthly_average` and `monthly_avg2` fields (0 becomes -5), so
the CategoryData is not exactly as ingestion left it. -/
theorem c9_counterexample :
    printMonthlyReportEffect none 1
        ((readInputFiles {} [("f", [coffeeRow])] 0 0).categories) ≠
      (readInputFiles {} [("f", [coffeeRow])] 0 0).categories := by
  rw [coffee_once]
  norm_num [printMonthlyReportEffect, monthlyReportUpdate]

/-- C9 amended: every reporting pass preserves the listed snapshot
fields - total, count, merchants (with all stored transactions), and
monthly totals - and the category/merchant report, recurrence report,
chart pass, and browser leave the snapshot entirely unchanged; only
`print_monthly_report` mutates it, and only by writing the two derived
average fields of each non-skipped category. -/
theorem c9_amended (optCat : Option String) (nmonths : Nat)
    (cats : List (String × CategoryData)) :
    (printMonthlyReportEffect optCat nmonths cats).map
        (fun p => (p.1, p.2.total, p.2.count, p.2.merchants, p.2.monthlyTotals)) =
      cats.map (fun p => (p.1, p.2.total, p.2.count, p.2.merchants, p.2.monthlyTotals)) ∧
    printReportEffect cats = cats ∧ recurringReportEffect cats = cats ∧
    chartEffect cats = cats ∧ browserEffect cats = cats := by
  refine ⟨?_, rfl, rfl, rfl, rfl⟩
  induction cats with
  | nil => rfl
  | cons p t ih =>
    cases optCat with
    | none =>
      simp only [printMonthlyReportEffect, List.map_cons] at ih ⊢
      simp [monthlyReportUpdate, ih]
    | some c =>
      by_cases hc : c = p.1
      · simpa [printMonthlyReportEffect, monthlyReportUpdate, hc] using ih
      · simpa [printMonthlyReportEffect, monthlyReportUpdate, hc] using ih

/-! ### Evaluation of the TRADER JOES recurrence analysis -/

theorem tjSf : signFilter false [tj1, tj2, tj3] =
    [(1705276800, (45 : ℚ)), (1707955200, 45), (1710460800, 45)] := by decide

theorem tjOutlier :
    outlierFilter [(1705276800, (45 : ℚ)), (1707955200, 45), (1710460800, 45)] =
      [(1705276800, (45 : ℚ)), (1707955200, 45), (1710460800, 45)] := by
  norm_num [outlierFilter, lowerMedian, sortAsc, insertAsc, List.getD]

theorem tjMonths :
    monthsOf [(1705276800, (45 : ℚ)), (1707955200, 45), (1710460800, 45)] =
      [(2024, 1), (2024, 2), (2024, 3)] := by decide

theorem tjSortA : sortAsc [(45 : ℚ), 45, 45] = [45, 45, 45] := by decide

theorem tjSortD : sortAsc [(1705276800 : Int), 1707955200, 1710460800] =
    [1705276800, 1707955200, 1710460800] := by decide

theorem tjGap : meanGap [1705276800, 1707955200, 1710460800] = 30 := by
  norm_num [meanGap]

theorem tjAnalyze (now : ℚ) (hnow : now ≤ 1710460800 + 63072000) :
    analyzeMerchantRecurrence "TRADER JOES" [tj1, tj2, tj3] false now =
      some { merchant := "TRADER JOES", count := 3, avgAmount := 45, annualCost := 540 } := by
  have hrec : ¬ ((1710460800 : ℚ) < now - 63072000) := by linarith
  norm_num [analyzeMerchantRecurrence, tjSf, tjOutlier, tjMonths, tjSortA, tjSortD, tjGap,
    List.getD, hrec]

theorem tjPool : poolMerchants tjCats = [("TRADER JOES", [tj1, tj2, tj3])] := by decide

/-- C3: ingesting the three TRADER JOES scenario rows with the
substring alias produces exactly one category aggregate (Groceries,
total -135, count 3) holding exactly one merchant aggregate
(TRADER JOES, same total and count, all three rows stored), and
expense-mode recurrence detection on that snapshot emits exactly the
record with month count 3, average amount 45 and annualized amount 540,
provided the wall clock `now` keeps the last transaction inside the
2-year recency gate. -/
theorem c3_trader_joes_scenario (now : ℚ) (hnow : now ≤ 1710460800 + 63072000) :
    (readInputFiles cfgTJ [("f", [tj1, tj2, tj3])] 0 0).categories = tjCats ∧
      detectRecurringMerchants tjCats false now =
        [{ merchant := "TRADER JOES", count := 3, avgAmount := 45, annualCost := 540 }] := by
  refine ⟨tj_ingest, ?_⟩
  simp [detectRecurringMerchants, tjPool, tjAnalyze now hnow]

/-- Witness for C3 with the wall clock set inside the recency window. -/
theorem c3_trader_joes_scenario_witness :
    ((0 : ℚ) ≤ 1710460800 + 63072000) ∧
      ((readInputFiles cfgTJ [("f", [tj1, tj2, tj3])] 0 0).categories = tjCats ∧
        detectRecurringMerchants tjCats false 0 =
          [{ merchant := "TRADER JOES", count := 3, avgAmount := 45, annualCost := 540 }]) :=
  ⟨by norm_num, c3_trader_joes_scenario 0 (by norm_num)⟩

/-! ### Evaluation of the ACME and GYM rejection examples -/

theorem acmeSf : signFilter false acmeRows =
    [(1705276800, (100 : ℚ)), (1707955200, 100), (1710460800, 100),
      (1713139200, 1000)] := by decide

theorem acmeOutlier :
    outlierFilter [(1705276800, (100 : ℚ)), (1707955200, 100), (1710460800, 100),
        (1713139200, 1000)] =
      [(1705276800, (100 : ℚ)), (1707955200, 100), (1710460800, 100),
        (1713139200, 1000)] := by
  norm_num [outlierFilter, lowerMedian, sortAsc, insertAsc, List.getD]

theorem acmeMonths :
    monthsOf [(1705276800, (100 : ℚ)), (1707955200, 100), (1710460800, 100),
        (1713139200, 1000)] =
      [(2024, 1), (2024, 2), (2024, 3), (2024, 4)] := by decide

theorem acmeSortA : sortAsc [(100 : ℚ), 100, 100, 1000] = [100, 100, 100, 1000] := by
  decide

theorem acmeMedian : lowerMedian [(100 : ℚ), 100, 100, 1000] = 100 := by
  norm_num [lowerMedian, sortAsc, insertAsc, List.getD]

theorem gymSf : signFilter false gymRows =
    [(1709251200, (50 : ℚ)), (1709683200, 50), (1710115200, 50),
      (1710547200, 50)] := by decide

theorem gymOutlier :
    outlierFilter [(1709251200, (50 : ℚ)), (1709683200, 50), (1710115200, 50),
        (1710547200, 50)] =
      [(1709251200, (50 : ℚ)), (1709683200, 50), (1710115200, 50),
        (1710547200, 50)] := by
  norm_num [outlierFilter, lowerMedian, sortAsc, insertAsc, List.getD]

theorem gymMonths :
    monthsOf [(1709251200, (50 : ℚ)), (1709683200, 50), (1710115200, 50),
        (1710547200, 50)] = [(2024, 3)] := by decide

theorem gymSortD :
    sortAsc [(1709251200 : Int), 1709683200, 1710115200, 1710547200] =
      [1709251200, 1709683200, 1710115200, 1710547200] := by decide

theorem gymGap : meanGap [1709251200, 1709683200, 1710115200, 1710547200] = 5 := by
  norm_num [meanGap]

/-- C4: after the sign filter the detector takes the lower median of
the absolute amounts, drops amounts below half of it, recomputes the
lower median of the survivors, and returns not-recurring whenever any
surviving amount deviates from that recomputed median by more than 20
percent; in particular the expense amounts -100, -100, -100, -1000
spread over four months are rejected, since 1000 survives the half-median
filter and then violates the 20 percent check. -/
theorem c4_amount_consistency_gate :
    (∀ (merchant : String) (txns : List Row) (income : Bool) (now : ℚ),
      (∃ a ∈ (outlierFilter (signFilter income txns)).map (fun p => p.2),
        ¬ (|a - lowerMedian ((outlierFilter (signFilter income txns)).map (fun p => p.2))| /
            lowerMedian ((outlierFilter (signFilter income txns)).map (fun p => p.2)) ≤
              1 / 5)) →
      analyzeMerchantRecurrence merchant txns income now = none) ∧
    (∀ now : ℚ, analyzeMerchantRecurrence "ACME" acmeRows false now = none) := by
  constructor
  · intro merchant txns income now h
    obtain ⟨a, ha, hviol⟩ := h
    simp only [analyzeMerchantRecurrence]
    split
    · rfl
    split
    · rfl
    split
    · rfl
    split
    · rfl
    split
    · rfl
    rename_i hall
    exfalso
    rw [Bool.not_eq_true, Bool.not_eq_false', List.all_eq_true] at hall
    have h2 := hall a (mem_sortAsc.2 ha)
    rw [decide_eq_true_eq] at h2
    simp only [lowerMedian] at hviol
    exact hviol h2
  · intro now
    norm_num [analyzeMerchantRecurrence, acmeSf, acmeOutlier, acmeMonths, acmeSortA,
      List.getD]

/-- Witness for C4: the surviving ACME amount 1000 deviates from the
recomputed median 100 by more than 20 percent, and the merchant is
rejected. -/
theorem c4_amount_consistency_gate_witness :
    (∃ a ∈ (outlierFilter (signFilter false acmeRows)).map (fun p => p.2),
      ¬ (|a - lowerMedian ((outlierFilter (signFilter false acmeRows)).map (fun p => p.2))| /
          lowerMedian ((outlierFilter (signFilter false acmeRows)).map (fun p => p.2)) ≤
            1 / 5)) ∧
    analyzeMerchantRecurrence "ACME" acmeRows false 0 = none := by
  have hyp : ∃ a ∈ (outlierFilter (signFilter false acmeRows)).map (fun p => p.2),
      ¬ (|a - lowerMedian ((outlierFilter (signFilter false acmeRows)).map (fun p => p.2))| /
          lowerMedian ((outlierFilter (signFilter false acmeRows)).map (fun p => p.2)) ≤
            1 / 5) := by
    refine ⟨1000, ?_, ?_⟩
    · rw [acmeSf, acmeOutlier]
      simp
    · rw [acmeSf, acmeOutlier]
      norm_num [acmeMedian]
  exact ⟨hyp, c4_amount_consistency_gate.1 "ACME" acmeRows false 0 hyp⟩

/-- C5: with the surviving transaction dates sorted ascending, whenever
at least two dates remain and the mean of the consecutive day gaps
falls outside the inclusive range 20 to 40 days, the merchant is not
recurring; four equal expenses spaced 5 days apart (mean gap 5) are
rejected. -/
theorem c5_interval_gate :
    (∀ (merchant : String) (txns : List Row) (income : Bool) (now : ℚ),
      2 ≤ (sortAsc ((outlierFilter (signFilter income txns)).map (fun p => p.1))).length →
      (meanGap (sortAsc ((outlierFilter (signFilter income txns)).map (fun p => p.1))) < 20 ∨
        40 < meanGap (sortAsc ((outlierFilter (signFilter income txns)).map (fun p => p.1)))) →
      analyzeMerchantRecurrence merchant txns income now = none) ∧
    (∀ now : ℚ, analyzeMerchantRecurrence "GYM" gymRows false now = none) := by
  constructor
  · intro merchant txns income now hlen hgap
    simp only [analyzeMerchantRecurrence]
    split
    · rfl
    split
    · rfl
    split
    · rfl
    split
    · rfl
    split
    · rfl
    rfl
  · intro now
    norm_num [analyzeMerchantRecurrence, gymSf, gymOutlier, gymMonths]

/-- Witness for C5: the GYM dates survive with mean gap 5, below 20,
and the merchant is rejected. -/
theorem c5_interval_gate_witness :
    2 ≤ (sortAsc ((outlierFilter (signFilter false gymRows)).map (fun p => p.1))).length ∧
    (meanGap (sortAsc ((outlierFilter (signFilter false gymRows)).map (fun p => p.1))) < 20 ∨
      40 < meanGap (sortAsc ((outlierFilter (signFilter false gymRows)).map (fun p => p.1)))) ∧
    analyzeMerchantRecurrence "GYM" gymRows false 0 = none := by
  have h1 : 2 ≤ (sortAsc ((outlierFilter (signFilter false gymRows)).map
      (fun p => p.1))).length := by
    rw [gymSf, gymOutlier]
    norm_num [gymSortD]
  have h2 : meanGap (sortAsc ((outlierFilter (signFilter false gymRows)).map
        (fun p => p.1))) < 20 ∨
      40 < meanGap (sortAsc ((outlierFilter (signFilter false gymRows)).map
        (fun p => p.1))) := by
    left
    rw [gymSf, gymOutlier]
    norm_num [gymSortD, gymGap]
  exact ⟨h1, h2, c5_interval_gate.1 "GYM" gymRows false 0 h1 h2⟩

/-! ### Totality of the recurrence detector -/

/-- Every amount surviving the sign filter is strictly positive. -/
theorem signFilter_pos (income : Bool) (txns : List Row) :
    ∀ p ∈ signFilter income txns, 0 < p.2 := by
  intro p hp
  simp only [signFilter, List.mem_filterMap] at hp
  obtain ⟨r, hr, he⟩ := hp
  by_cases hi : income
  · simp only [hi, if_true] at he
    by_cases ha : r.amount ≤ 0
    · simp [ha] at he
    · rw [if_neg ha] at he
      obtain he2 := (Option.some_injective _ he)
      rw [← he2]
      exact abs_pos.2 (fun h0 => ha (le_of_eq h0))
  · simp only [hi, if_false] at he
    by_cases ha : 0 ≤ r.amount
    · simp [ha] at he
    · rw [if_neg ha] at he
      obtain he2 := (Option.some_injective _ he)
      rw [← he2]
      exact abs_pos.2 (fun h0 => ha (ge_of_eq h0))

/-- With a non-zero median the checked deviation map never errors. -/
theorem mapDivChecked_ok (m : ℚ) (hm : m ≠ 0) (l : List ℚ) :
    mapDivChecked m l = Except.ok (l.map (fun a => |a - m| / m)) := by
  induction l with
  | nil => rfl
  | cons a t ih => simp [mapDivChecked, divChecked, hm, ih]

set_option maxHeartbeats 2000000 in
/-- C6: the recurrence analysis of any typed transaction list is total
in either mode: the instrumented version, in which every list indexing
and every division is guarded and a violation raises, never raises -
each statistic is computed behind a minimum-count gate and the
deviation divisor is a median of strictly positive values - and it
returns exactly the plain result, a pattern record or none. -/
theorem c6_recurrence_detector_total (merchant : String) (txns : List Row) (income : Bool) (now : ℚ) :
    analyzeChecked merchant txns income now =
      Except.ok (analyzeMerchantRecurrence merchant txns income now) := by
  simp only [analyzeChecked, analyzeMerchantRecurrence, outlierFilter, lowerMedian]
  by_cases h1 : txns.length < 3
  · simp only [if_pos h1]
  simp only [if_neg h1]
  by_cases h2 : (signFilter income txns).length < 3
  · simp only [if_pos h2]
  simp only [if_neg h2]
  have hlen : (sortAsc ((signFilter income txns).map (fun p => p.2))).length =
      (signFilter income txns).length := by
    rw [length_sortAsc, List.length_map]
  have hpos : 0 < (sortAsc ((signFilter income txns).map (fun p => p.2))).length := by
    omega
  have hidx : (sortAsc ((signFilter income txns).map (fun p => p.2))).length / 2 <
      (sortAsc ((signFilter income txns).map (fun p => p.2))).length :=
    Nat.div_lt_self hpos one_lt_two
  obtain ⟨x, hx⟩ : ∃ x, (sortAsc ((signFilter income txns).map (fun p => p.2))).get?
      ((sortAsc ((signFilter income txns).map (fun p => p.2))).length / 2) = some x :=
    ⟨_, List.get?_eq_get hidx⟩
  simp only [getChecked, hx]
  have hgd : (sortAsc ((signFilter income txns).map (fun p => p.2))).getD
      ((sortAsc ((signFilter income txns).map (fun p => p.2))).length / 2) 0 = x := by
    rw [List.getD_eq_getElem?_getD, ← List.get?_eq_getElem?, hx]
    rfl
  simp only [hgd]
  by_cases h3 : ((signFilter income txns).filter
      (fun p => decide (x * (1 / 2) ≤ p.2))).length < 3
  · simp only [if_pos h3]
  simp only [if_neg h3]
  by_cases h4 : (monthsOf ((signFilter income txns).filter
      (fun p => decide (x * (1 / 2) ≤ p.2)))).length < 3
  · simp only [if_pos h4]
  simp only [if_neg h4]
  have hlen2 : (sortAsc (((signFilter income txns).filter
      (fun p => decide (x * (1 / 2) ≤ p.2))).map (fun p => p.2))).length =
      ((signFilter income txns).filter (fun p => decide (x * (1 / 2) ≤ p.2))).length := by
    rw [length_sortAsc, List.length_map]
  have hpos2 : 0 < (sortAsc (((signFilter income txns).filter
      (fun p => decide (x * (1 / 2) ≤ p.2))).map (fun p => p.2))).length := by
    omega
  have hidx2 : (sortAsc (((signFilter income txns).filter
      (fun p => decide (x * (1 / 2) ≤ p.2))).map (fun p => p.2))).length / 2 <
      (sortAsc (((signFilter income txns).filter
      (fun p => decide (x * (1 / 2) ≤ p.2))).map (fun p => p.2))).length :=
    Nat.div_lt_self hpos2 one_lt_two
  obtain ⟨y, hy⟩ : ∃ y, (sortAsc (((signFilter income txns).filter
      (fun p => decide (x * (1 / 2) ≤ p.2))).map (fun p => p.2))).get?
      ((sortAsc (((signFilter income txns).filter
      (fun p => decide (x * (1 / 2) ≤ p.2))).map (fun p => p.2))).length / 2) = some y :=
    ⟨_, List.get?_eq_get hidx2⟩
  simp only [getChecked, hy]
  have hgd2 : (sortAsc (((signFilter income txns).filter
      (fun p => decide (x * (1 / 2) ≤ p.2))).map (fun p => p.2))).getD
      ((sortAsc (((signFilter income txns).filter
      (fun p => decide (x * (1 / 2) ≤ p.2))).map (fun p => p.2))).length / 2) 0 = y := by
    rw [List.getD_eq_getElem?_getD, ← List.get?_eq_getElem?, hy]
    rfl
  simp only [hgd2]
  have hypos : 0 < y := by
    have hmem : y ∈ sortAsc (((signFilter income txns).filter
        (fun p => decide (x * (1 / 2) ≤ p.2))).map (fun p => p.2)) := List.get?_mem hy
    have hmem2 := mem_sortAsc.1 hmem
    obtain ⟨p, hp, hpe⟩ := List.mem_map.1 hmem2
    have hp2 : p ∈ signFilter income txns := (List.mem_filter.1 hp).1
    have := signFilter_pos income txns p hp2
    exact hpe ▸ this
  have hyne : y ≠ 0 := ne_of_gt hypos
  simp only [mapDivChecked_ok y hyne, List.all_map, Function.comp_def]
  by_cases h5 : (!(sortAsc (((signFilter income txns).filter
      (fun p => decide (x * (1 / 2) ≤ p.2))).map (fun p => p.2))).all
      (fun amt => decide (|amt - y| / y ≤ 1 / 5))) = true
  · simp only [if_pos h5]
  simp only [if_neg h5]
  have hd2 : 2 ≤ (sortAsc (((signFilter income txns).filter
      (fun p => decide (x * (1 / 2) ≤ p.2))).map (fun p => p.1))).length := by
    rw [length_sortAsc, List.length_map]
    omega
  have hdne : sortAsc (((signFilter income txns).filter
      (fun p => decide (x * (1 / 2) ≤ p.2))).map (fun p => p.1)) ≠ [] :=
    List.ne_nil_of_length_pos (by omega)
  obtain ⟨z, hz⟩ : ∃ z, (sortAsc (((signFilter income txns).filter
      (fun p => decide (x * (1 / 2) ≤ p.2))).map (fun p => p.1))).getLast? = some z :=
    Option.isSome_iff_exists.1 (List.getLast?_isSome.2 hdne)
  have hzd : (sortAsc (((signFilter income txns).filter
      (fun p => decide (x * (1 / 2) ≤ p.2))).map (fun p => p.1))).getLastD 0 = z := by
    rw [List.getLastD_eq_getLast?, hz]
    rfl
  set D := sortAsc (((signFilter income txns).filter
      (fun p => decide (x * (1 / 2) ≤ p.2))).map (fun p => p.1)) with hDdef
  set A := sortAsc (((signFilter income txns).filter
      (fun p => decide (x * (1 / 2) ≤ p.2))).map (fun p => p.2)) with hAdef
  simp only [if_pos hd2]
  have hglen2 : ((((D.zip D.tail).map
      (fun p => ((p.2 - p.1 : Int) : ℚ) / 86400)).length : ℚ)) ≠ 0 := by
    rw [List.length_map, List.length_zip, List.length_tail, Nat.cast_ne_zero]
    omega
  simp only [divChecked, if_neg hglen2, meanGap]
  by_cases h7 : ((D.zip D.tail).map (fun p => ((p.2 - p.1 : Int) : ℚ) / 86400)).sum /
        ((((D.zip D.tail).map (fun p => ((p.2 - p.1 : Int) : ℚ) / 86400)).length : ℚ)) < 20 ∨
      40 < ((D.zip D.tail).map (fun p => ((p.2 - p.1 : Int) : ℚ) / 86400)).sum /
        ((((D.zip D.tail).map (fun p => ((p.2 - p.1 : Int) : ℚ) / 86400)).length : ℚ))
  · simp only [if_pos h7]
  simp only [if_neg h7]
  simp only [hz, hzd]
  by_cases h8 : ((z : Int) : ℚ) < now - 63072000
  · simp only [if_pos h8]
  simp only [if_neg h8]
  have hAne : ((A.length : ℚ)) ≠ 0 := by
    rw [hAdef, length_sortAsc, List.length_map, Nat.cast_ne_zero]
    omega
  simp only [divChecked, if_neg hAne]

/-! ### Loader refinement -/

/-- The code-side date filter equals the spec-side half-open window. -/
theorem inWindow_eq_spec (s e d : Int) : inWindow s e d = specInWindow s e d := by
  simp only [inWindow, specInWindow]
  by_cases hs : s = 0 <;> by_cases he : e = 0 <;>
    by_cases h1 : d < s <;> by_cases h2 : e ≤ d <;>
      simp [hs, he, h1, h2, not_lt, le_of_not_lt] <;> omega

theorem fsf_append_of_some (prev l2 : List (String × Row)) (q : Row) (f0 : String)
    (h : firstSightingFile prev q = some f0) :
    firstSightingFile (prev ++ l2) q = some f0 := by
  simp only [firstSightingFile, List.find?_append] at h ⊢
  cases hf : prev.find? (fun p => decide (p.2 = q)) with
  | none => rw [hf] at h; simp at h
  | some p0 => rw [hf] at h; simpa [Option.or] using h

theorem fsf_append_none (prev : List (String × Row)) (f : String) (r q : Row)
    (h : firstSightingFile prev q = none) :
    firstSightingFile (prev ++ [(f, r)]) q = if r = q then some f else none := by
  simp only [firstSightingFile, List.find?_append] at h ⊢
  cases hf : prev.find? (fun p => decide (p.2 = q)) with
  | some p0 => rw [hf] at h; simp at h
  | none =>
    by_cases hr : r = q <;> simp [List.find?, hr, Option.or]

theorem specGo_sublist (s e : Int) :
    ∀ (l : List (String × Row)) (prev : List (String × Row)),
      (loadRowsSpecGo s e prev l).Sublist l := by
  intro l
  induction l with
  | nil => intro prev; simp [loadRowsSpecGo]
  | cons fr rest ih =>
    intro prev
    simp only [loadRowsSpecGo]
    by_cases hw : specInWindow s e (tsOf fr.2) = true
    · rw [if_pos hw]
      by_cases hk : specKeeps prev fr.1 fr.2 = true
      · rw [if_pos hk]
        exact List.Sublist.cons₂ fr (ih (prev ++ [fr]))
      · rw [if_neg hk]
        exact List.Sublist.cons fr (ih (prev ++ [fr]))
    · rw [if_neg hw]
      exact List.Sublist.cons fr (ih prev)

theorem loadGo_spec (s e : Int) :
    ∀ (l : List (String × Row)) (m : List (Row × String)) (acc prev : List (String × Row)),
      (∀ q : Row, alookup m q = firstSightingFile prev q) →
      (List.foldl (loadStep s e) (m, acc) l).2 = acc ++ loadRowsSpecGo s e prev l := by
  intro l
  induction l with
  | nil =>
    intro m acc prev h
    simp [loadRowsSpecGo]
  | cons fr rest ih =>
    intro m acc prev h
    obtain ⟨f, r⟩ := fr
    rw [List.foldl_cons]
    by_cases hw : inWindow s e (tsOf r) = true
    · have hw2 : specInWindow s e (tsOf r) = true := by rw [← inWindow_eq_spec]; exact hw
      cases hm : alookup m r with
      | none =>
        have hfs : firstSightingFile prev r = none := by rw [← h r]; exact hm
        have hstep : loadStep s e (m, acc) (f, r) = (aset m r f, acc ++ [(f, r)]) := by
          simp [loadStep, hw, dedupOK, hm]
        rw [hstep]
        rw [show loadRowsSpecGo s e prev ((f, r) :: rest) =
            (f, r) :: loadRowsSpecGo s e (prev ++ [(f, r)]) rest from by
          simp [loadRowsSpecGo, hw2, specKeeps, hfs]]
        rw [ih (aset m r f) (acc ++ [(f, r)]) (prev ++ [(f, r)]) ?_]
        · simp
        · intro q
          by_cases hq : q = r
          · subst hq
            rw [alookup_aset_self, fsf_append_none prev f q q hfs, if_pos rfl]
          · rw [alookup_aset_ne _ _ _ _ hq, h q]
            cases hq2 : firstSightingFile prev q with
            | none => rw [fsf_append_none prev f r q hq2,
                if_neg (fun hh => hq (hh.symm : q = r))]
            | some f0 => rw [fsf_append_of_some prev [(f, r)] q f0 hq2]
      | some f0 =>
        have hfs : firstSightingFile prev r = some f0 := by rw [← h r]; exact hm
        by_cases hf : f0 = f
        · have hstep : loadStep s e (m, acc) (f, r) = (aset m r f, acc ++ [(f, r)]) := by
            simp [loadStep, hw, dedupOK, hm, hf]
          rw [hstep]
          rw [show loadRowsSpecGo s e prev ((f, r) :: rest) =
              (f, r) :: loadRowsSpecGo s e (prev ++ [(f, r)]) rest from by
            simp [loadRowsSpecGo, hw2, specKeeps, hfs, hf]]
          rw [ih (aset m r f) (acc ++ [(f, r)]) (prev ++ [(f, r)]) ?_]
          · simp
          · intro q
            by_cases hq : q = r
            · subst hq
              rw [alookup_aset_self, fsf_append_of_some prev [(f, q)] q f0 hfs, hf]
            · rw [alookup_aset_ne _ _ _ _ hq, h q]
              cases hq2 : firstSightingFile prev q with
              | none => rw [fsf_append_none prev f r q hq2,
                  if_neg (fun hh => hq (hh.symm : q = r))]
              | some f1 => rw [fsf_append_of_some prev [(f, r)] q f1 hq2]
        · have hstep : loadStep s e (m, acc) (f, r) = (m, acc) := by
            simp [loadStep, hw, dedupOK, hm, hf]
          rw [hstep]
          rw [show loadRowsSpecGo s e prev ((f, r) :: rest) =
              loadRowsSpecGo s e (prev ++ [(f, r)]) rest from by
            simp [loadRowsSpecGo, hw2, specKeeps, hfs, hf]]
          refine ih m acc (prev ++ [(f, r)]) ?_
          intro q
          by_cases hq : q = r
          · subst hq
            rw [h q, hfs, fsf_append_of_some prev [(f, q)] q f0 hfs]
          · rw [h q]
            cases hq2 : firstSightingFile prev q with
            | none => rw [fsf_append_none prev f r q hq2,
                if_neg (fun hh => hq (hh.symm : q = r))]
            | some f1 => rw [fsf_append_of_some prev [(f, r)] q f1 hq2]
    · have hw2 : ¬ specInWindow s e (tsOf r) = true := by
        rw [← inWindow_eq_spec]; exact hw
      have hstep : loadStep s e (m, acc) (f, r) = (m, acc) := by
        simp only [loadStep]
        rw [if_neg hw]
      rw [hstep]
      rw [show loadRowsSpecGo s e prev ((f, r) :: rest) =
          loadRowsSpecGo s e prev rest from by
        simp only [loadRowsSpecGo]
        rw [if_neg hw2]]
      exact ih m acc prev h

/-- C7: the record loader emits exactly the rows of the input stream
(file order, then row order) whose resolved date lies in the half-open
window - either bound unset meaning unbounded - dropping a row exactly
when its full-row signature was first sighted in-window from a
different file (first file wins, repeated same-file signatures
accepted), and the emitted sequence preserves input order: the code
loader equals the loader written from the specification words, and its
output is a sublist of the tagged input stream. -/
theorem c7_loader_contract (files : List (String × List Row)) (s e : Int) :
    loadRows files s e = loadRowsSpec files s e ∧
      (loadRows files s e).Sublist (flattenFiles files) := by
  have h1 : loadRows files s e = loadRowsSpec files s e := by
    unfold loadRows loadRowsSpec
    rw [loadGo_spec s e (flattenFiles files) [] [] [] (fun q => rfl)]
    simp
  refine ⟨h1, ?_⟩
  rw [h1]
  exact specGo_sublist s e (flattenFiles files) []

end Chase
